import Mathlib

/-!
Shallow embedding of the variable-resolution and template-rendering core of
the draft scaffolding engine (pkg/config/draftconfig.go and
pkg/handlers/template.go).

The Go in-place mutation of a `DraftConfig` is modelled by explicit state
passing: operations that mutate the config return the updated config
together with an optional error (`DraftConfig × Option String`), mirroring
the fact that in Go an error return still leaves earlier mutations in
place.  The unbounded Go recursion in `recurseReferenceVars` is modelled
with explicit fuel: a result of `none` means the recursion did not return
within the given fuel (for every fuel, in the divergent cases).

External collaborators are parameters of the embedding rather than
reimplementations: the semantic-version library (`blang/semver`) is a
`SemverOracle`, the built-in validator/transformer catalog (packages
`validators`/`transformers`, outside the embedded sources) is a
`BuiltinRegistry`, and the text/template engine plus the file writer are
the `render`/`write` fields of `RenderEnv`.
-/

/-- `BuilderVarDefault` from draftconfig.go: default-resolution rule of a variable. -/
structure BuilderVarDefault where
  isPromptDisabled : Bool
  referenceVar : String
  value : String
deriving Repr, DecidableEq

/-- `BuilderVarConditionalReference` from draftconfig.go. -/
structure BuilderVarConditionalReference where
  referenceVar : String
deriving Repr, DecidableEq

/-- `BuilderVar` from draftconfig.go: one variable schema entry. -/
structure BuilderVar where
  name : String
  conditionalRef : BuilderVarConditionalReference
  default : BuilderVarDefault
  description : String
  exampleValues : List String
  type : String
  kind : String
  value : String
  versions : String
deriving Repr, DecidableEq

/-- The zero value of `BuilderVar` (the Go zero literal of `BuilderVar`). -/
def emptyBuilderVar : BuilderVar :=
  { name := "", conditionalRef := { referenceVar := "" },
    default := { isPromptDisabled := false, referenceVar := "", value := "" },
    description := "", exampleValues := [], type := "", kind := "",
    value := "", versions := "" }

instance : Inhabited BuilderVar := ⟨emptyBuilderVar⟩

/-- A validator (Go `VariableValidator`, `func(string) error`): `some msg` is an
error, `none` is success. -/
def VariableValidator : Type := String → Option String

/-- A transformer (Go `VariableTransformer`, `func(string) (string, error)`). -/
def VariableTransformer : Type := String → Except String String

/-- `DraftConfig` from draftconfig.go.  The Go maps for filename overrides and
the validator/transformer overrides are association lists. -/
structure DraftConfig where
  templateName : String
  displayName : String
  description : String
  type : String
  versions : String
  defaultVersion : String
  vars : List BuilderVar
  fileNameOverrideMap : List (String × String)
  validators : List (String × VariableValidator)
  transformers : List (String × VariableTransformer)

/-- The built-in validator/transformer catalog: the `validators` and
`transformers` packages are external collaborators of the embedded sources,
so they are a parameter of the semantics. -/
structure BuiltinRegistry where
  validator : String → VariableValidator
  transformer : String → VariableTransformer

/-- `DraftConfig.GetVariable`: first variable with the given name, `none` is
the "variable not found" error. -/
def getVariable (d : DraftConfig) (name : String) : Option BuilderVar :=
  d.vars.find? (fun v => v.name == name)

/-- `DraftConfig.GetVariableValidator`: user override first, else built-in. -/
def getVariableValidator (reg : BuiltinRegistry) (d : DraftConfig) (kind : String) :
    VariableValidator :=
  match d.validators.lookup kind with
  | some f => f
  | none => reg.validator kind

/-- `DraftConfig.GetVariableTransformer`: user override first, else built-in. -/
def getVariableTransformer (reg : BuiltinRegistry) (d : DraftConfig) (kind : String) :
    VariableTransformer :=
  match d.transformers.lookup kind with
  | some f => f
  | none => reg.transformer kind

/-- Loop body of `DraftConfig.GetVariableValue`, recursing over the variable
list exactly as the Go `for` loop does (first name match wins). -/
def getVariableValueAux (reg : BuiltinRegistry) (d : DraftConfig) (name : String) :
    List BuilderVar → Except String String
  | [] => .error ("variable " ++ name ++ " not found")
  | v :: rest =>
    if v.name == name then
      if v.value == "" then .error ("variable " ++ name ++ " has no value")
      else
        match getVariableValidator reg d v.kind v.value with
        | some e => .error ("failed variable validation: " ++ e)
        | none =>
          match getVariableTransformer reg d v.kind v.value with
          | .error e => .error ("failed variable transformation: " ++ e)
          | .ok response => .ok response
    else getVariableValueAux reg d name rest

/-- `DraftConfig.GetVariableValue`. -/
def getVariableValue (reg : BuiltinRegistry) (d : DraftConfig) (name : String) :
    Except String String :=
  getVariableValueAux reg d name d.vars

/-- `DraftConfig.recurseReferenceVars`, with fuel: `none` means the recursion
did not return within `fuel` steps.  `variableCheck` is the variable the
cycle check compares against (the Go callers pass the first referenced
variable for both arguments). -/
def recurseReferenceVars (d : DraftConfig) :
    Nat → BuilderVar → BuilderVar → Bool → Option (Except String String)
  | 0, _, _, _ => none
  | fuel + 1, referenceVar, variableCheck, isFirst =>
    if !isFirst && referenceVar.name == variableCheck.name then
      some (.error "cyclical reference detected")
    else if referenceVar.value != "" then
      some (.ok referenceVar.value)
    else if referenceVar.default.referenceVar != "" then
      match getVariable d referenceVar.default.referenceVar with
      | none =>
        some (.error ("recurse reference vars: variable " ++
          referenceVar.default.referenceVar ++ " not found"))
      | some rv => recurseReferenceVars d fuel rv variableCheck false
    else
      some (.ok referenceVar.default.value)

/-- The reference-resolution block of the `ApplyDefaultVariables` loop body
(the Go `if variable.Default.ReferenceVar != ""` block): when the variable
has a default reference, look that variable up, chase the chain, and write
the obtained value into the variable; otherwise leave it alone.  `none`
means the reference recursion diverged. -/
def applyDefaultVarRef (fuel : Nat) (cur : DraftConfig) (v : BuilderVar) :
    Option (Except String BuilderVar) :=
  if v.default.referenceVar != "" then
    match getVariable cur v.default.referenceVar with
    | none =>
      some (.error ("apply default variables: variable " ++
        v.default.referenceVar ++ " not found"))
    | some rv =>
      match recurseReferenceVars cur fuel rv rv true with
      | none => none
      | some (.error e) => some (.error ("apply default variables: " ++ e))
      | some (.ok defaultVal) => some (.ok { v with value := defaultVal })
  else some (.ok v)

/-- Loop body of `ApplyDefaultVariables` for one variable: `cur` is the config
as mutated so far (the Go loop reads other variables through live pointers).
`some (.ok v₂)` is the updated variable, `some (.error e)` aborts the loop
with the variable unchanged, `none` means the reference recursion diverged. -/
def applyDefaultVar (fuel : Nat) (cur : DraftConfig) (v : BuilderVar) :
    Option (Except String BuilderVar) :=
  if v.value != "" then some (.ok v)
  else
    match applyDefaultVarRef fuel cur v with
    | none => none
    | some (.error e) => some (.error e)
    | some (.ok v₂) =>
      if v₂.value == "" then
        if v₂.default.value != "" then some (.ok { v₂ with value := v₂.default.value })
        else some (.error ("variable " ++ v₂.name ++ " has no default value"))
      else some (.ok v₂)

/-- The shared variable loop of `ApplyDefaultVariables` and
`ApplyDefaultVariablesForVersion`: process `todo` in order, threading the
mutated config (`done` are the already-processed variables); on a step error
the loop stops but earlier mutations persist, as with the Go in-place writes. -/
def applyVarsAux (step : DraftConfig → BuilderVar → Option (Except String BuilderVar))
    (base : DraftConfig) (done : List BuilderVar) :
    List BuilderVar → Option (DraftConfig × Option String)
  | [] => some ({ base with vars := done }, none)
  | v :: rest =>
    match step { base with vars := done ++ v :: rest } v with
    | none => none
    | some (.error e) => some ({ base with vars := done ++ v :: rest }, some e)
    | some (.ok v₂) => applyVarsAux step base (done ++ [v₂]) rest

/-- `DraftConfig.ApplyDefaultVariables` (state-passing, fuelled). -/
def applyDefaultVariables (fuel : Nat) (d : DraftConfig) :
    Option (DraftConfig × Option String) :=
  applyVarsAux (applyDefaultVar fuel) d [] d.vars

/-- The semantic-version library (`blang/semver`), an external collaborator:
`parse` is `semver.Parse`, `parseRange` is `semver.ParseRange` (a parsed
range is the predicate it denotes).  `V` is the abstract type of parsed
versions. -/
structure SemverOracle (V : Type) where
  parse : String → Option V
  parseRange : String → Option (V → Bool)

/-- Loop body of `ApplyDefaultVariablesForVersion` for one variable: on top of
`applyDefaultVar`, the own `versions` range of an unset variable is parsed (error
if unparseable) and the variable is skipped unchanged when the target
version falls outside it. -/
def applyDefaultVarForVersion {V : Type} (oracle : SemverOracle V) (ver : V)
    (fuel : Nat) (cur : DraftConfig) (v : BuilderVar) :
    Option (Except String BuilderVar) :=
  if v.value != "" then some (.ok v)
  else
    match oracle.parseRange v.versions with
    | none => some (.error "invalid variable versions")
    | some expectedRange =>
      if !expectedRange ver then some (.ok v)
      else applyDefaultVar fuel cur v

/-- `DraftConfig.ApplyDefaultVariablesForVersion` (state-passing, fuelled). -/
def applyDefaultVariablesForVersion {V : Type} (oracle : SemverOracle V)
    (fuel : Nat) (d : DraftConfig) (version : String) :
    Option (DraftConfig × Option String) :=
  match oracle.parse version with
  | none => some (d, some "invalid version")
  | some v =>
    match oracle.parseRange d.versions with
    | none => some (d, some "invalid config version range")
    | some expectedConfigVersionRange =>
      if !expectedConfigVersionRange v then
        some (d, some ("version " ++ version ++ " is outside of config version range " ++
          d.versions))
      else applyVarsAux (applyDefaultVarForVersion oracle v fuel) d [] d.vars

/-- `BuilderVar.DeepCopy` from draftconfig.go: copies every field except
`ConditionalRef`, which is left at its zero value. -/
def BuilderVar.deepCopy (bv : BuilderVar) : BuilderVar :=
  { name := bv.name,
    conditionalRef := { referenceVar := "" },
    default := bv.default,
    description := bv.description,
    exampleValues := bv.exampleValues,
    type := bv.type,
    kind := bv.kind,
    value := bv.value,
    versions := bv.versions }

/-- `DraftConfig.DeepCopy` from draftconfig.go: copies the scalar fields, the
variable list (element-wise via `BuilderVar.deepCopy`) and the filename
override map; the `Validators` and `Transformers` override maps are not
copied (they stay at their zero value, the empty map). -/
def DraftConfig.deepCopy (d : DraftConfig) : DraftConfig :=
  { templateName := d.templateName,
    displayName := d.displayName,
    description := d.description,
    type := d.type,
    versions := d.versions,
    defaultVersion := d.defaultVersion,
    vars := d.vars.map BuilderVar.deepCopy,
    fileNameOverrideMap := d.fileNameOverrideMap,
    validators := [],
    transformers := [] }

/-- A config as a list of pointers into a heap of `BuilderVar` cells. -/
structure ConfigRef where
  varAddrs : List Nat

/-- The cell a (possibly dangling) address points to. -/
def heapAt (heap : List BuilderVar) (a : Nat) : BuilderVar :=
  (heap[a]?).getD emptyBuilderVar

/-- The address search inside `GetVariable`, heap model: first address in the
slice of the config whose cell carries the name. -/
def findVarAddr (heap : List BuilderVar) (c : ConfigRef) (name : String) : Option Nat :=
  c.varAddrs.find? (fun a => (heapAt heap a).name == name)

/-- `DraftConfig.SetVariable`, heap model: update the named cell in place if
it exists, else allocate a fresh cell (Go appends `&BuilderVar{Name, Value}`)
and append its address to the config. -/
def heapSetVariable (heap : List BuilderVar) (c : ConfigRef) (name value : String) :
    List BuilderVar × ConfigRef :=
  match findVarAddr heap c name with
  | some a => (heap.set a { heapAt heap a with value := value }, c)
  | none =>
    (heap ++ [{ emptyBuilderVar with name := name, value := value }],
     { varAddrs := c.varAddrs ++ [heap.length] })

/-- `DraftConfig.DeepCopy`, heap model: every variable is copied into a fresh
cell (`newConfig.Variables[i] = variable.DeepCopy()`), so the addresses of the copy are all new. -/
def heapDeepCopy (heap : List BuilderVar) (c : ConfigRef) :
    List BuilderVar × ConfigRef :=
  (heap ++ c.varAddrs.map (fun a => (heapAt heap a).deepCopy),
   { varAddrs := List.range' heap.length c.varAddrs.length })

/-- One entry visited by `fs.WalkDir`: its full path, its base name
(`d.Name()`), whether it is a directory, and the result of reading it
(`fs.ReadFile` can fail). -/
structure FsEntry where
  path : String
  name : String
  isDir : Bool
  content : Except String String

/-- The external collaborators of the renderer: `render` is template
parse + execute (`text/template` with `missingkey=error`), `write` is
`TemplateWriter.WriteFile` (`some msg` is a write error). -/
structure RenderEnv where
  render : String → Except String String
  write : String → String → Option String

/-- The Go `strings.EqualFold`, restricted to simple case folding: the two
strings agree character-wise up to lowercasing. -/
def equalFold (s t : String) : Bool :=
  s.data.map Char.toLower == t.data.map Char.toLower

/-- Splitting a character list on a separator (all groups kept, empty ones
included), used for the path components below. -/
def splitOnChar (c : Char) : List Char → List (List Char)
  | [] => [[]]
  | a :: rest =>
    let r := splitOnChar c rest
    if a == c then [] :: r
    else
      match r with
      | [] => [[a]]
      | g :: gs => (a :: g) :: gs

/-- The Go `filepath.Base`: empty path gives ".", trailing slashes are
stripped, all-slash paths give "/", and otherwise the component after the
last slash remains. -/
def filepathBase (path : String) : String :=
  if path == "" then "."
  else
    let p : String := ⟨(path.data.reverse.dropWhile (fun c => c == '/')).reverse⟩
    if p == ("" : String) then "/"
    else String.mk ((splitOnChar '/' p.data).getLastD p.data)

/-- `writeTemplate` from template.go: read the file, render it, and write the
result to `<dest>/<base name>`; on success the performed write (target path
and payload) is returned. -/
def writeTemplate (env : RenderEnv) (dest : String) (e : FsEntry) :
    Except String (String × String) :=
  match e.content with
  | .error err => .error err
  | .ok file =>
    match env.render file with
    | .error err => .error err
    | .ok buf =>
      let target := dest ++ "/" ++ filepathBase e.path
      match env.write target buf with
      | some err => .error err
      | none => .ok (target, buf)

/-- Walk body of `generateTemplate`: directories and files whose base name
case-insensitively equals "draft.yaml" are skipped; the first
`writeTemplate` error stops the walk, keeping the writes performed so far. -/
def generateTemplateAux (env : RenderEnv) (dest : String) :
    List FsEntry → List (String × String) → List (String × String) × Option String
  | [], acc => (acc, none)
  | e :: rest, acc =>
    if e.isDir then generateTemplateAux env dest rest acc
    else if equalFold e.name "draft.yaml" then generateTemplateAux env dest rest acc
    else
      match writeTemplate env dest e with
      | .error err => (acc, some err)
      | .ok w => generateTemplateAux env dest rest (acc ++ [w])

/-- `generateTemplate` from template.go: the whole walk, returning the writes
performed (in order) and the error that stopped it, if any. -/
def generateTemplate (env : RenderEnv) (dest : String) (files : List FsEntry) :
    List (String × String) × Option String :=
  generateTemplateAux env dest files []

/-- The `Template` handler struct: `Option` fields model the Go nil-able
`Config` and `templateFiles`. -/
structure Template where
  config : Option DraftConfig
  templateFiles : Option (List FsEntry)
  src : String
  dest : String
  version : String

/-- `Template.Generate` from template.go, over an `Option Template` (a nil
receiver is `none`).  The checks are those of `Template.validate`, in order;
then `ApplyDefaultVariablesForVersion` runs once, and then — exactly as the
source reads — `generateTemplate` is invoked twice, the second walk running
whenever the first succeeded.  The result is the concatenated write trace
and the final error (`none` of the outer `Option` meaning default
application diverged). -/
def Generate {V : Type} (oracle : SemverOracle V) (fuel : Nat) (env : RenderEnv) :
    Option Template → Option (List (String × String) × Option String)
  | none => some ([], some "template is nil")
  | some t =>
    match t.config with
    | none => some ([], some "template draft config is nil")
    | some cfg =>
      if t.src == "" then some ([], some "template source is empty")
      else if t.dest == "" then some ([], some "template destination is empty")
      else
        match t.templateFiles with
        | none => some ([], some "template files is nil")
        | some files =>
          if t.version == "" then some ([], some "template version is empty")
          else
            match applyDefaultVariablesForVersion oracle fuel cfg t.version with
            | none => none
            | some (_, some err) => some ([], some ("create workflow files: " ++ err))
            | some (_, none) =>
              match generateTemplate env t.dest files with
              | (w₁, some err) => some (w₁, some err)
              | (w₁, none) =>
                match generateTemplate env t.dest files with
                | (w₂, e₂) => some (w₁ ++ w₂, e₂)

/-- A variable whose default is a reference to another variable. -/
def mkRefVar (name ref : String) : BuilderVar :=
  { emptyBuilderVar with
    name := name,
    default := { isPromptDisabled := false, referenceVar := ref, value := "" } }

/-- A variable whose default is an inline value. -/
def mkInlineVar (name val : String) : BuilderVar :=
  { emptyBuilderVar with
    name := name,
    default := { isPromptDisabled := false, referenceVar := "", value := val } }

/-- A config holding just the given variables. -/
def mkConfig (vs : List BuilderVar) : DraftConfig :=
  { templateName := "", displayName := "", description := "", type := "",
    versions := "", defaultVersion := "", vars := vs,
    fileNameOverrideMap := [], validators := [], transformers := [] }

/-- Chain A→B→A: the reference of B points back to A. -/
def cfgABA : DraftConfig :=
  mkConfig [mkRefVar "A" "B", mkRefVar "B" "A"]

/-- Chain A→B→C→B: the chain revisits the intermediate B, never A. -/
def cfgABCB : DraftConfig :=
  mkConfig [mkRefVar "A" "B", mkRefVar "B" "C", mkRefVar "C" "B"]

/-- Chain A→B→C with C carrying inline default "x". -/
def cfgChain : DraftConfig :=
  mkConfig [mkRefVar "A" "B", mkRefVar "B" "C", mkInlineVar "C" "x"]

/-- Chain A→B and a cycle C↔D that never revisits B (the check variable). -/
def cfgCycle4 : DraftConfig :=
  mkConfig [mkRefVar "A" "B", mkRefVar "B" "C", mkRefVar "C" "D", mkRefVar "D" "C"]

/-- A concrete semver oracle for witnesses: "bad" does not parse, every
other string parses to version 1; the range "none" excludes every version,
every other range admits every version. -/
def oracleW : SemverOracle Nat :=
  { parse := fun s => if s == "bad" then none else some 1,
    parseRange := fun s =>
      if s == "none" then some (fun _ => false) else some (fun _ => true) }

/-- A config whose version range excludes every version. -/
def cfgRangeNone : DraftConfig :=
  { mkConfig [mkInlineVar "A" "x"] with versions := "none" }

/-- An unset variable whose own version range excludes every version. -/
def varRangeNone : BuilderVar :=
  { emptyBuilderVar with name := "S", versions := "none" }

/-- A registry for witnesses: kind "badkind" always fails validation, kind
"failkind" always fails transformation, every other kind validates and
transforms to itself. -/
def regW : BuiltinRegistry :=
  { validator := fun kind =>
      if kind == "badkind" then (fun _ => some "bad") else (fun _ => none),
    transformer := fun kind =>
      if kind == "failkind" then (fun _ => .error "boom") else (fun s => .ok s) }

/-- A config exercising all `GetVariableValue` outcomes. -/
def cfgGet : DraftConfig :=
  mkConfig
    [{ emptyBuilderVar with name := "E" },
     { emptyBuilderVar with name := "V", value := "x", kind := "badkind" },
     { emptyBuilderVar with name := "T", value := "x", kind := "failkind" },
     { emptyBuilderVar with name := "O", value := "x", kind := "plain" }]

/-- A two-variable config where the whole chain is empty: P references Q, Q
has neither a value nor a default. -/
def cfgEmptyChain : DraftConfig :=
  mkConfig [mkRefVar "P" "Q", mkInlineVar "Q" ""]

/-- A fully-set one-variable config. -/
def cfgFull : DraftConfig :=
  mkConfig [{ emptyBuilderVar with name := "A", value := "v" }]

/-- A one-variable config with only an inline default. -/
def cfgInline : DraftConfig :=
  mkConfig [mkInlineVar "I" "x"]

/-- `cfgInline` after default application. -/
def cfgInlineAfter : DraftConfig :=
  mkConfig [{ mkInlineVar "I" "x" with value := "x" }]

/-- The deterministic reference walk underlying `recurseReferenceVars`:
`chainWalk d k v` is the variable reached after `k` reference hops from `v`,
or `none` when the walk stops strictly before the k-th hop (a non-empty
value, no reference, or a reference to a missing variable).  The walk
ignores the cycle check, which also stops the recursion. -/
def chainWalk (d : DraftConfig) : Nat → BuilderVar → Option BuilderVar
  | 0, v => some v
  | k + 1, v =>
    if v.value != "" then none
    else if v.default.referenceVar != "" then
      match getVariable d v.default.referenceVar with
      | none => none
      | some w => chainWalk d k w
    else none

/-- An unset variable with no reference, outside any config. -/
def varZ : BuilderVar := { emptyBuilderVar with name := "Z" }

/-- The recursion never returns, whatever the fuel. -/
def recurseDiverges (d : DraftConfig) (v vc : BuilderVar) : Prop :=
  ∀ fuel, recurseReferenceVars d fuel v vc true = none

/-- Default application never returns, whatever the fuel. -/
def applyDefaultsDiverges (d : DraftConfig) : Prop :=
  ∀ fuel, applyDefaultVariables fuel d = none

/-- A two-cell heap and a config owning both cells. -/
def heapW : List BuilderVar :=
  [{ emptyBuilderVar with name := "A", value := "a" },
   { emptyBuilderVar with name := "B", value := "b" }]

/-- The config owning the two cells of `heapW`. -/
def cfgRefW : ConfigRef := { varAddrs := [0, 1] }

/-- A variable carrying a conditional reference. -/
def varCond : BuilderVar :=
  { emptyBuilderVar with
    name := "C",
    conditionalRef := { referenceVar := "X" },
    kind := "k",
    value := "v" }

/-- A config with a conditional reference and override maps. -/
def cfgCond : DraftConfig :=
  { mkConfig [varCond] with
    validators := [("k", fun _ => none)],
    transformers := [("k", fun s => .ok s)] }

/-- An entry is rendered iff it is a file whose base name is not
(case-insensitively) "draft.yaml". -/
def shouldProcess (e : FsEntry) : Bool :=
  !e.isDir && !(equalFold e.name "draft.yaml")

/-- A render environment for witnesses: input "BOOM" fails to render, any
other input renders to itself; writes always succeed. -/
def envW : RenderEnv :=
  { render := fun s => if s == "BOOM" then .error "render failed" else .ok s,
    write := fun _ _ => none }

/-- A directory entry. -/
def fDir : FsEntry := { path := "t", name := "t", isDir := true, content := .ok "" }

/-- The schema file, in mixed case. -/
def fYaml : FsEntry :=
  { path := "t/Draft.YAML", name := "Draft.YAML", isDir := false, content := .ok "meta" }

/-- A file that renders fine. -/
def fA : FsEntry :=
  { path := "t/a.txt", name := "a.txt", isDir := false, content := .ok "hello" }

/-- A nested file whose rendering fails. -/
def fBoom : FsEntry :=
  { path := "t/sub/boom.txt", name := "boom.txt", isDir := false, content := .ok "BOOM" }

/-- A file after the failing one. -/
def fC : FsEntry :=
  { path := "t/c.txt", name := "c.txt", isDir := false, content := .ok "world" }

/-- The write each witness file produces. -/
def wW (u : FsEntry) : String × String :=
  ("out" ++ "/" ++ filepathBase u.path,
   match u.content with
   | .ok s => s
   | .error s => s)

/-- A render environment that renders every file to its own text and always
writes successfully. -/
def envId : RenderEnv :=
  { render := fun s => .ok s, write := fun _ _ => none }

/-- A single ordinary template file. -/
def fileA : FsEntry :=
  { path := "templates/app/a.txt", name := "a.txt", isDir := false,
    content := .ok "hello" }

/-- A fully populated template handler over one file. -/
def tmplOne : Template :=
  { config := some (mkConfig []),
    templateFiles := some [fileA],
    src := "templates/app",
    dest := "out",
    version := "1.0.0" }

/-- The loop only ever extends the accumulator: the result keeps the scalar
fields of `base` and its variable list extends `done` by as many entries as
`todo` has. -/
theorem applyVarsAux_shape
    (step : DraftConfig → BuilderVar → Option (Except String BuilderVar))
    (base : DraftConfig) (todo : List BuilderVar) :
    ∀ (done : List BuilderVar) (d' : DraftConfig) (err : Option String),
      applyVarsAux step base done todo = some (d', err) →
      ∃ tail, d' = { base with vars := done ++ tail } ∧ tail.length = todo.length := by
  induction todo with
  | nil =>
    intro done d' err h
    simp only [applyVarsAux, Option.some.injEq, Prod.mk.injEq] at h
    exact ⟨[], by simp [← h.1], rfl⟩
  | cons v rest ih =>
    intro done d' err h
    simp only [applyVarsAux] at h
    cases hstep : step { base with vars := done ++ v :: rest } v with
    | none => rw [hstep] at h; exact absurd h (by simp)
    | some r =>
      cases r with
      | error e =>
        rw [hstep] at h
        simp only [Option.some.injEq, Prod.mk.injEq] at h
        exact ⟨v :: rest, by simp [← h.1], rfl⟩
      | ok v₂ =>
        rw [hstep] at h
        obtain ⟨tail, ht, hl⟩ := ih (done ++ [v₂]) d' err h
        exact ⟨v₂ :: tail, by simpa using ht, by simpa using hl⟩

/-- If every pending variable is a fixed point of the step function, the loop
succeeds and changes nothing. -/
theorem applyVarsAux_fixed
    (step : DraftConfig → BuilderVar → Option (Except String BuilderVar))
    (base : DraftConfig) (todo : List BuilderVar) :
    ∀ (done : List BuilderVar),
      (∀ v ∈ todo, ∀ cur, step cur v = some (.ok v)) →
      applyVarsAux step base done todo = some ({ base with vars := done ++ todo }, none) := by
  induction todo with
  | nil => intro done _; simp [applyVarsAux]
  | cons v rest ih =>
    intro done h
    simp only [applyVarsAux]
    rw [h v (by simp) _]
    have := ih (done ++ [v]) (fun w hw cur => h w (by simp [hw]) cur)
    simpa using this

/-- An invariant established by the step function on every successful update
holds for all variables of a successful run, provided it held on the already
processed part. -/
theorem applyVarsAux_inv
    (step : DraftConfig → BuilderVar → Option (Except String BuilderVar))
    (P : BuilderVar → Prop)
    (hstep : ∀ cur v w, step cur v = some (.ok w) → P w)
    (base : DraftConfig) (todo : List BuilderVar) :
    ∀ (done : List BuilderVar) (d' : DraftConfig),
      (∀ v ∈ done, P v) →
      applyVarsAux step base done todo = some (d', none) →
      ∀ v ∈ d'.vars, P v := by
  induction todo with
  | nil =>
    intro done d' hdone h
    simp only [applyVarsAux, Option.some.injEq, Prod.mk.injEq] at h
    intro v hv
    rw [← h.1] at hv
    exact hdone v hv
  | cons v rest ih =>
    intro done d' hdone h
    simp only [applyVarsAux] at h
    cases hs : step { base with vars := done ++ v :: rest } v with
    | none => rw [hs] at h; exact absurd h (by simp)
    | some r =>
      cases r with
      | error e => rw [hs] at h; simp only [Option.some.injEq, Prod.mk.injEq] at h; exact absurd h.2 (by simp)
      | ok w =>
        rw [hs] at h
        refine ih (done ++ [w]) d' ?_ h
        intro u hu
        rcases List.mem_append.1 hu with h1 | h1
        · exact hdone u h1
        · rw [List.mem_singleton.1 h1]
          exact hstep _ _ _ hs

/-- A successful run writes, at each position, the step result of the
variable that was there, whenever that result does not depend on the
intermediate configs. -/
theorem applyVarsAux_at
    (step : DraftConfig → BuilderVar → Option (Except String BuilderVar))
    (base : DraftConfig) (todo : List BuilderVar) :
    ∀ (done : List BuilderVar) (d' : DraftConfig) (j : Nat) (v w : BuilderVar),
      applyVarsAux step base done todo = some (d', none) →
      todo[j]? = some v →
      (∀ cur, step cur v = some (.ok w)) →
      d'.vars[done.length + j]? = some w := by
  induction todo with
  | nil => intro done d' j v w _ hj _; simp at hj
  | cons u rest ih =>
    intro done d' j v w h hj hstep
    simp only [applyVarsAux] at h
    cases hs : step { base with vars := done ++ u :: rest } u with
    | none => rw [hs] at h; exact absurd h (by simp)
    | some r =>
      cases r with
      | error e => rw [hs] at h; simp only [Option.some.injEq, Prod.mk.injEq] at h; exact absurd h.2 (by simp)
      | ok u₂ =>
        rw [hs] at h
        cases j with
        | zero =>
          have hu : u = v := by simpa using hj
          subst hu
          have hw : u₂ = w := by
            have h2 := hstep { base with vars := done ++ u :: rest }
            rw [hs] at h2
            simpa using h2
          obtain ⟨tail, ht, _⟩ := applyVarsAux_shape step base rest (done ++ [u₂]) d' none h
          rw [ht, ← hw]
          show ((done ++ [u₂]) ++ tail)[done.length + 0]? = some u₂
          rw [List.getElem?_append_left (by simp)]
          simp
        | succ j' =>
          have := ih (done ++ [u₂]) d' j' v w h (by simpa using hj) hstep
          have harith : (done ++ [u₂]).length + j' = done.length + (j' + 1) := by
            simp; omega
          rwa [harith] at this

/-- A variable that already has a value is left untouched. -/
theorem applyDefaultVar_of_ne (fuel : Nat) (cur : DraftConfig) (v : BuilderVar)
    (h : v.value ≠ "") : applyDefaultVar fuel cur v = some (.ok v) := by
  simp [applyDefaultVar, h]

/-- A successful default application always produces a non-empty value. -/
theorem applyDefaultVar_ok_ne (fuel : Nat) (cur : DraftConfig) (v w : BuilderVar)
    (h : applyDefaultVar fuel cur v = some (.ok w)) : w.value ≠ "" := by
  by_cases hv : v.value = ""
  · rw [applyDefaultVar, if_neg (by simp [hv])] at h
    cases hr : applyDefaultVarRef fuel cur v with
    | none => rw [hr] at h; simp at h
    | some r =>
      rw [hr] at h
      cases r with
      | error e => simp at h
      | ok v₂ =>
        simp only at h
        by_cases h2 : v₂.value = ""
        · rw [if_pos (by simp [h2])] at h
          by_cases h3 : v₂.default.value = ""
          · rw [if_neg (by simp [h3])] at h
            simp at h
          · rw [if_pos (by simp [h3])] at h
            simp only [Option.some.injEq, Except.ok.injEq] at h
            rw [← h]
            simpa using h3
        · rw [if_neg (by simp [h2])] at h
          simp only [Option.some.injEq, Except.ok.injEq] at h
          rw [← h]
          exact h2
  · rw [applyDefaultVar_of_ne fuel cur v hv] at h
    simp only [Option.some.injEq, Except.ok.injEq] at h
    rw [← h]
    exact hv

/-- Any output of a successful step is a fixed point of the step, at every
fuel and every intermediate config. -/
theorem applyDefaultVar_fix (fuel : Nat) (cur : DraftConfig) (v w : BuilderVar)
    (h : applyDefaultVar fuel cur v = some (.ok w)) :
    ∀ (fuel' : Nat) (cur' : DraftConfig), applyDefaultVar fuel' cur' w = some (.ok w) :=
  fun fuel' cur' => applyDefaultVar_of_ne fuel' cur' w (applyDefaultVar_ok_ne fuel cur v w h)

/-- A variable that already has a value is skipped by the versioned step. -/
theorem applyDefaultVarForVersion_of_ne {V : Type} (oracle : SemverOracle V) (ver : V)
    (fuel : Nat) (cur : DraftConfig) (v : BuilderVar) (h : v.value ≠ "") :
    applyDefaultVarForVersion oracle ver fuel cur v = some (.ok v) := by
  simp [applyDefaultVarForVersion, h]

/-- Any output of a successful versioned step is a fixed point of the
versioned step, at every fuel and every intermediate config. -/
theorem applyDefaultVarForVersion_fix {V : Type} (oracle : SemverOracle V) (ver : V)
    (fuel : Nat) (cur : DraftConfig) (v w : BuilderVar)
    (h : applyDefaultVarForVersion oracle ver fuel cur v = some (.ok w)) :
    ∀ (fuel' : Nat) (cur' : DraftConfig),
      applyDefaultVarForVersion oracle ver fuel' cur' w = some (.ok w) := by
  intro fuel' cur'
  by_cases hv : v.value = ""
  · rw [applyDefaultVarForVersion, if_neg (by simp [hv])] at h
    cases hpr : oracle.parseRange v.versions with
    | none => rw [hpr] at h; simp at h
    | some r =>
      rw [hpr] at h
      simp only at h
      by_cases hrv : r ver = true
      · rw [if_neg (by simp [hrv])] at h
        exact applyDefaultVarForVersion_of_ne oracle ver fuel' cur' w
          (applyDefaultVar_ok_ne fuel cur v w h)
      · rw [if_pos (by simp [hrv])] at h
        simp only [Option.some.injEq, Except.ok.injEq] at h
        rw [← h]
        rw [applyDefaultVarForVersion, if_neg (by simp [hv]), hpr]
        simp [hrv]
  · have hw : w = v := by
      rw [applyDefaultVarForVersion_of_ne oracle ver fuel cur v hv] at h
      simpa using h.symm
    rw [hw]
    exact applyDefaultVarForVersion_of_ne oracle ver fuel' cur' v hv

/-- C1 counterexample: on the chain A→B→C→B — which revisits the
intermediate B but never the original A — default resolution DOES fail with
the cyclical-reference error, contradicting the claim that this chain does
not trigger the cycle check. -/
theorem c1_chain_ABCB_triggers_cycle_check :
    applyDefaultVariables 10 cfgABCB =
      some (cfgABCB, some "apply default variables: cyclical reference detected") := rfl

/-- C1 (amended): cycle detection compares every hop after the first against
the FIRST REFERENCED variable (the check variable both Go call sites pass),
not against the original variable being resolved: any hop whose name equals
the check variable name fails with the cyclical-reference error, so both the
chain A→B→A and the chain A→B→C→B fail with it. -/
theorem c1_cycle_check_against_first_hop (d : DraftConfig) (fuel : Nat)
    (rv vc : BuilderVar) (h : rv.name = vc.name) :
    recurseReferenceVars d (fuel + 1) rv vc false =
      some (.error "cyclical reference detected") ∧
    applyDefaultVariables 10 cfgABA =
      some (cfgABA, some "apply default variables: cyclical reference detected") ∧
    applyDefaultVariables 10 cfgABCB =
      some (cfgABCB, some "apply default variables: cyclical reference detected") := by
  refine ⟨?_, rfl, rfl⟩
  simp [recurseReferenceVars, h]

/-- C1 witness: the amended theorem applied to the concrete chain A→B→A,
with the check variable B revisited after the first hop. -/
theorem c1_cycle_check_against_first_hop_witness :
    recurseReferenceVars cfgABA 1 (mkRefVar "B" "A") (mkRefVar "B" "A") false =
      some (.error "cyclical reference detected") ∧
    applyDefaultVariables 10 cfgABA =
      some (cfgABA, some "apply default variables: cyclical reference detected") ∧
    applyDefaultVariables 10 cfgABCB =
      some (cfgABCB, some "apply default variables: cyclical reference detected") :=
  c1_cycle_check_against_first_hop cfgABA 0 (mkRefVar "B" "A") (mkRefVar "B" "A") rfl

/-- C3: `ApplyDefaultVariablesForVersion` fails with the invalid-version
error — leaving the config untouched — when the version string does not
parse; fails with the out-of-range error — again leaving the config
untouched — when the parsed version falls outside the (parseable) config
version range; and an unset variable whose own parseable range excludes the
target version is skipped unchanged with no error. -/
theorem c3_apply_defaults_for_version_errors {V : Type} (oracle : SemverOracle V)
    (fuel : Nat) (d : DraftConfig) (version : String) :
    (oracle.parse version = none →
      applyDefaultVariablesForVersion oracle fuel d version =
        some (d, some "invalid version")) ∧
    (∀ (ver : V) (r : V → Bool), oracle.parse version = some ver →
      oracle.parseRange d.versions = some r → r ver = false →
      applyDefaultVariablesForVersion oracle fuel d version =
        some (d, some ("version " ++ version ++ " is outside of config version range " ++
          d.versions))) ∧
    (∀ (ver : V) (cur : DraftConfig) (v : BuilderVar) (r : V → Bool),
      v.value = "" → oracle.parseRange v.versions = some r → r ver = false →
      applyDefaultVarForVersion oracle ver fuel cur v = some (.ok v)) := by
  refine ⟨?_, ?_, ?_⟩
  · intro h
    simp [applyDefaultVariablesForVersion, h]
  · intro ver r hp hr hrv
    simp [applyDefaultVariablesForVersion, hp, hr, hrv]
  · intro ver cur v r hv hr hrv
    simp [applyDefaultVarForVersion, hv, hr, hrv]

/-- C3 witness: the three error behaviours at concrete inputs — an
unparseable version string, a version outside the config range, and a
variable whose own range excludes the target version. -/
theorem c3_apply_defaults_for_version_errors_witness :
    applyDefaultVariablesForVersion oracleW 3 (mkConfig [mkInlineVar "A" "x"]) "bad" =
      some (mkConfig [mkInlineVar "A" "x"], some "invalid version") ∧
    applyDefaultVariablesForVersion oracleW 3 cfgRangeNone "1.0.0" =
      some (cfgRangeNone, some ("version 1.0.0 is outside of config version range " ++
        cfgRangeNone.versions)) ∧
    applyDefaultVarForVersion oracleW 1 3 cfgRangeNone varRangeNone =
      some (.ok varRangeNone) :=
  ⟨(c3_apply_defaults_for_version_errors oracleW 3 (mkConfig [mkInlineVar "A" "x"]) "bad").1 rfl,
   (c3_apply_defaults_for_version_errors oracleW 3 cfgRangeNone "1.0.0").2.1
     1 (fun _ => false) rfl rfl rfl,
   (c3_apply_defaults_for_version_errors oracleW 3 cfgRangeNone "1.0.0").2.2
     1 cfgRangeNone varRangeNone (fun _ => false) rfl rfl rfl⟩

/-- Case analysis of the `GetVariableValue` loop in terms of the first name
match of the list. -/
theorem getVariableValueAux_cases (reg : BuiltinRegistry) (d : DraftConfig)
    (name : String) (l : List BuilderVar) :
    (l.find? (fun v => v.name == name) = none →
      getVariableValueAux reg d name l = .error ("variable " ++ name ++ " not found")) ∧
    (∀ v, l.find? (fun v => v.name == name) = some v →
      getVariableValueAux reg d name l =
        (if v.value == "" then .error ("variable " ++ name ++ " has no value")
         else
           match getVariableValidator reg d v.kind v.value with
           | some e => .error ("failed variable validation: " ++ e)
           | none =>
             match getVariableTransformer reg d v.kind v.value with
             | .error e => .error ("failed variable transformation: " ++ e)
             | .ok response => .ok response)) := by
  induction l with
  | nil => exact ⟨fun _ => rfl, fun v hv => by simp at hv⟩
  | cons u rest ih =>
    by_cases hu : (u.name == name) = true
    · have hfind : List.find? (fun v => v.name == name) (u :: rest) = some u := by
        simp [hu]
      constructor
      · intro h
        rw [hfind] at h
        simp at h
      · intro v hv
        rw [hfind] at hv
        simp only [Option.some.injEq] at hv
        subst hv
        simp only [getVariableValueAux, hu, if_true]
    · have hfind : List.find? (fun v => v.name == name) (u :: rest) =
          List.find? (fun v => v.name == name) rest := by
        simp [hu]
      constructor
      · intro h
        rw [hfind] at h
        simp only [getVariableValueAux, hu, if_false, Bool.false_eq_true]
        exact ih.1 h
      · intro v hv
        rw [hfind] at hv
        simp only [getVariableValueAux, hu, if_false, Bool.false_eq_true]
        exact ih.2 v hv

/-- C4: `GetVariableValue` fails with the not-found error when no variable
carries the name, the empty-value error when the (first) variable of that
name has the empty value, the validation error when the kind validator
rejects the stored value, the transformation error when the kind transformer
fails, and otherwise returns the transformed value — for every config,
registry, and name, with no mutation of the config (the function only reads
it). -/
theorem c4_getVariableValue_spec (reg : BuiltinRegistry) (d : DraftConfig)
    (name : String) :
    (getVariable d name = none →
      getVariableValue reg d name = .error ("variable " ++ name ++ " not found")) ∧
    (∀ v, getVariable d name = some v → v.value = "" →
      getVariableValue reg d name = .error ("variable " ++ name ++ " has no value")) ∧
    (∀ v e, getVariable d name = some v → v.value ≠ "" →
      getVariableValidator reg d v.kind v.value = some e →
      getVariableValue reg d name = .error ("failed variable validation: " ++ e)) ∧
    (∀ v e, getVariable d name = some v → v.value ≠ "" →
      getVariableValidator reg d v.kind v.value = none →
      getVariableTransformer reg d v.kind v.value = .error e →
      getVariableValue reg d name = .error ("failed variable transformation: " ++ e)) ∧
    (∀ v response, getVariable d name = some v → v.value ≠ "" →
      getVariableValidator reg d v.kind v.value = none →
      getVariableTransformer reg d v.kind v.value = .ok response →
      getVariableValue reg d name = .ok response) := by
  obtain ⟨h1, h2⟩ := getVariableValueAux_cases reg d name d.vars
  refine ⟨h1, ?_, ?_, ?_, ?_⟩
  · intro v hv hval
    rw [getVariableValue, h2 v hv]
    simp [hval]
  · intro v e hv hval hvd
    rw [getVariableValue, h2 v hv]
    simp [hval, hvd]
  · intro v e hv hval hvd htr
    rw [getVariableValue, h2 v hv]
    simp [hval, hvd, htr]
  · intro v response hv hval hvd htr
    rw [getVariableValue, h2 v hv]
    simp [hval, hvd, htr]

/-- C4 witness: all five outcomes at concrete variables of `cfgGet`. -/
theorem c4_getVariableValue_spec_witness :
    getVariableValue regW cfgGet "Z" = .error ("variable " ++ "Z" ++ " not found") ∧
    getVariableValue regW cfgGet "E" = .error ("variable " ++ "E" ++ " has no value") ∧
    getVariableValue regW cfgGet "V" = .error ("failed variable validation: " ++ "bad") ∧
    getVariableValue regW cfgGet "T" = .error ("failed variable transformation: " ++ "boom") ∧
    getVariableValue regW cfgGet "O" = .ok "x" :=
  ⟨(c4_getVariableValue_spec regW cfgGet "Z").1 rfl,
   (c4_getVariableValue_spec regW cfgGet "E").2.1 { emptyBuilderVar with name := "E" } rfl rfl,
   (c4_getVariableValue_spec regW cfgGet "V").2.2.1
     { emptyBuilderVar with name := "V", value := "x", kind := "badkind" } "bad"
     rfl (by decide) rfl,
   (c4_getVariableValue_spec regW cfgGet "T").2.2.2.1
     { emptyBuilderVar with name := "T", value := "x", kind := "failkind" } "boom"
     rfl (by decide) rfl rfl,
   (c4_getVariableValue_spec regW cfgGet "O").2.2.2.2
     { emptyBuilderVar with name := "O", value := "x", kind := "plain" } "x"
     rfl (by decide) rfl rfl⟩

/-- C5: default resolution follows reference chains to the first variable
carrying a value: on the concrete chain A→B→C with C holding inline default
"x", `ApplyDefaultVariables` resolves A to "x"; and in general, when the
reference chain yields the empty string the variable falls back to its own
inline default value if that is non-empty, and otherwise resolution fails
with the no-default-available error naming the variable (also when the
variable has no reference at all). -/
theorem c5_chain_resolution (fuel : Nat) (cur : DraftConfig) (v rv : BuilderVar) :
    ((applyDefaultVariables 4 cfgChain).map
        (fun p => ((getVariable p.1 "A").map (fun w => w.value), p.2)) =
      some (some "x", none)) ∧
    (v.value = "" → v.default.referenceVar ≠ "" →
      getVariable cur v.default.referenceVar = some rv →
      recurseReferenceVars cur fuel rv rv true = some (.ok "") →
      ((v.default.value ≠ "" →
          applyDefaultVar fuel cur v = some (.ok { v with value := v.default.value })) ∧
       (v.default.value = "" →
          applyDefaultVar fuel cur v =
            some (.error ("variable " ++ v.name ++ " has no default value"))))) ∧
    (v.value = "" → v.default.referenceVar = "" → v.default.value = "" →
      applyDefaultVar fuel cur v =
        some (.error ("variable " ++ v.name ++ " has no default value"))) := by
  refine ⟨rfl, ?_, ?_⟩
  · intro hv href hg hr
    constructor
    · intro hd
      simp [applyDefaultVar, applyDefaultVarRef, hv, href, hg, hr, hd]
    · intro hd
      simp [applyDefaultVar, applyDefaultVarRef, hv, href, hg, hr, hd]
  · intro hv href hd
    simp [applyDefaultVar, applyDefaultVarRef, hv, href, hd]

/-- C5 witness: the concrete chain resolution, and the no-default-available
error when the chain from P yields the empty string and P has no inline
default either. -/
theorem c5_chain_resolution_witness :
    ((applyDefaultVariables 4 cfgChain).map
        (fun p => ((getVariable p.1 "A").map (fun w => w.value), p.2)) =
      some (some "x", none)) ∧
    applyDefaultVar 1 cfgEmptyChain (mkRefVar "P" "Q") =
      some (.error ("variable " ++ (mkRefVar "P" "Q").name ++ " has no default value")) :=
  ⟨(c5_chain_resolution 1 cfgEmptyChain (mkRefVar "P" "Q") (mkInlineVar "Q" "")).1,
   ((c5_chain_resolution 1 cfgEmptyChain (mkRefVar "P" "Q") (mkInlineVar "Q" "")).2.1
      rfl (by decide) rfl rfl).2 rfl⟩

/-- A successful `applyDefaultVariables` run leaves every variable with a
non-empty value. -/
theorem applyDefaultVariables_ok_ne (fuel : Nat) (d d' : DraftConfig)
    (h : applyDefaultVariables fuel d = some (d', none)) :
    ∀ v ∈ d'.vars, v.value ≠ "" :=
  applyVarsAux_inv (applyDefaultVar fuel) (fun v => v.value ≠ "")
    (fun cur v w hw => applyDefaultVar_ok_ne fuel cur v w hw) d d.vars [] d'
    (by intro v hv; simp at hv) h

/-- C9: both default-application entry points are idempotent: on a config
whose variables all have non-empty values each is the identity (given, for
the versioned one, a version that parses and satisfies the config range);
after any successful run a second run changes nothing; and a variable with
only an inline default and no reference is set to that inline value exactly
once, at its own position. -/
theorem c9_idempotence {V : Type} (oracle : SemverOracle V) (fuel fuel' : Nat)
    (d d' : DraftConfig) (version : String) :
    ((∀ v ∈ d.vars, v.value ≠ "") →
      applyDefaultVariables fuel d = some (d, none)) ∧
    ((∀ v ∈ d.vars, v.value ≠ "") → ∀ (ver : V) (r : V → Bool),
      oracle.parse version = some ver → oracle.parseRange d.versions = some r →
      r ver = true →
      applyDefaultVariablesForVersion oracle fuel d version = some (d, none)) ∧
    (applyDefaultVariables fuel d = some (d', none) →
      applyDefaultVariables fuel' d' = some (d', none)) ∧
    (applyDefaultVariablesForVersion oracle fuel d version = some (d', none) →
      applyDefaultVariablesForVersion oracle fuel' d' version = some (d', none)) ∧
    (∀ (j : Nat) (v : BuilderVar), d.vars[j]? = some v → v.value = "" →
      v.default.referenceVar = "" → v.default.value ≠ "" →
      applyDefaultVariables fuel d = some (d', none) →
      d'.vars[j]? = some { v with value := v.default.value }) := by
  have identity : ∀ (f : Nat) (c : DraftConfig), (∀ v ∈ c.vars, v.value ≠ "") →
      applyDefaultVariables f c = some (c, none) := by
    intro f c hc
    exact applyVarsAux_fixed (applyDefaultVar f) c c.vars []
      (fun v hv cur => applyDefaultVar_of_ne f cur v (hc v hv))
  refine ⟨identity fuel d, ?_, ?_, ?_, ?_⟩
  · intro h ver r hp hr hrv
    have hfix : ∀ v ∈ d.vars, ∀ cur,
        applyDefaultVarForVersion oracle ver fuel cur v = some (.ok v) :=
      fun v hv cur => applyDefaultVarForVersion_of_ne oracle ver fuel cur v (h v hv)
    have hloop := applyVarsAux_fixed (applyDefaultVarForVersion oracle ver fuel)
      d d.vars [] hfix
    rw [applyDefaultVariablesForVersion, hp, hr]
    simp only [hrv, Bool.not_true, Bool.false_eq_true, if_false]
    exact hloop
  · intro h
    exact identity fuel' d' (applyDefaultVariables_ok_ne fuel d d' h)
  · intro h
    rw [applyDefaultVariablesForVersion] at h
    cases hp : oracle.parse version with
    | none => rw [hp] at h; simp at h
    | some ver =>
      rw [hp] at h
      cases hr : oracle.parseRange d.versions with
      | none => rw [hr] at h; simp at h
      | some r =>
        rw [hr] at h
        simp only at h
        by_cases hrv : r ver = true
        · rw [if_neg (by simp [hrv])] at h
          have hall := applyVarsAux_inv (applyDefaultVarForVersion oracle ver fuel)
            (fun w => ∀ (f : Nat) (cur : DraftConfig),
              applyDefaultVarForVersion oracle ver f cur w = some (.ok w))
            (fun cur v w hw => applyDefaultVarForVersion_fix oracle ver fuel cur v w hw)
            d d.vars [] d' (by intro v hv; simp at hv) h
          obtain ⟨tail, hd', _⟩ := applyVarsAux_shape
            (applyDefaultVarForVersion oracle ver fuel) d d.vars [] d' none h
          have hver : d'.versions = d.versions := by rw [hd']
          rw [applyDefaultVariablesForVersion, hp, hver, hr]
          simp only [hrv, Bool.not_true, Bool.false_eq_true, if_false]
          exact applyVarsAux_fixed (applyDefaultVarForVersion oracle ver fuel')
            d' d'.vars [] (fun v hv cur => hall v hv fuel' cur)
        · rw [if_pos (by simp [hrv])] at h
          simp at h
  · intro j v hj hv href hd h
    have hstep : ∀ cur, applyDefaultVar fuel cur v =
        some (.ok { v with value := v.default.value }) := by
      intro cur
      simp [applyDefaultVar, applyDefaultVarRef, hv, href, hd]
    have := applyVarsAux_at (applyDefaultVar fuel) d d.vars [] d' j v
      { v with value := v.default.value } h hj hstep
    simpa using this

/-- C9 witness: identity on a fully-set config (both entry points), second
runs after a successful run, and the inline-only variable set exactly once. -/
theorem c9_idempotence_witness :
    applyDefaultVariables 1 cfgFull = some (cfgFull, none) ∧
    applyDefaultVariablesForVersion oracleW 1 cfgFull "1.0.0" = some (cfgFull, none) ∧
    applyDefaultVariables 2 cfgInlineAfter = some (cfgInlineAfter, none) ∧
    applyDefaultVariablesForVersion oracleW 2 cfgInlineAfter "1.0.0" =
      some (cfgInlineAfter, none) ∧
    cfgInlineAfter.vars[0]? = some { mkInlineVar "I" "x" with value := "x" } :=
  ⟨(c9_idempotence oracleW 1 1 cfgFull cfgFull "1.0.0").1 (by decide),
   (c9_idempotence oracleW 1 1 cfgFull cfgFull "1.0.0").2.1 (by decide)
     1 (fun _ => true) rfl rfl rfl,
   (c9_idempotence oracleW 1 2 cfgInline cfgInlineAfter "1.0.0").2.2.1 rfl,
   (c9_idempotence oracleW 1 2 cfgInline cfgInlineAfter "1.0.0").2.2.2.1 rfl,
   (c9_idempotence oracleW 1 2 cfgInline cfgInlineAfter "1.0.0").2.2.2.2
     0 (mkInlineVar "I" "x") rfl rfl rfl (by decide) rfl⟩

/-- If the reference walk stops within `k` hops, the recursion returns within
any fuel of at least `k`. -/
theorem recurse_isSome_of_walk_stops (d : DraftConfig) :
    ∀ (k : Nat) (v : BuilderVar), chainWalk d k v = none →
      ∀ (fuel : Nat) (vc : BuilderVar) (b : Bool), k ≤ fuel →
        (recurseReferenceVars d fuel v vc b).isSome := by
  intro k
  induction k with
  | zero => intro v h; simp [chainWalk] at h
  | succ k ih =>
    intro v h fuel vc b hle
    cases fuel with
    | zero => omega
    | succ f =>
      rw [recurseReferenceVars]
      by_cases h1 : (!b && v.name == vc.name) = true
      · rw [if_pos h1]; simp
      · rw [if_neg h1]
        by_cases h2 : (v.value != "") = true
        · rw [if_pos h2]; simp
        · rw [if_neg h2]
          by_cases h3 : (v.default.referenceVar != "") = true
          · rw [if_pos h3]
            rw [chainWalk, if_neg h2, if_pos h3] at h
            cases hg : getVariable d v.default.referenceVar with
            | none => simp
            | some w =>
              rw [hg] at h
              exact ih w h f vc false (by omega)
          · rw [if_neg h3]; simp

/-- Every variable reached after at least one hop is a member of the
variable list of the config. -/
theorem chainWalk_mem (d : DraftConfig) :
    ∀ (k : Nat) (v w : BuilderVar), chainWalk d (k + 1) v = some w → w ∈ d.vars := by
  intro k
  induction k with
  | zero =>
    intro v w h
    rw [chainWalk] at h
    by_cases h2 : (v.value != "") = true
    · rw [if_pos h2] at h; simp at h
    · rw [if_neg h2] at h
      by_cases h3 : (v.default.referenceVar != "") = true
      · rw [if_pos h3] at h
        cases hg : getVariable d v.default.referenceVar with
        | none => rw [hg] at h; simp at h
        | some u =>
          rw [hg] at h
          have hu : u = w := by simpa [chainWalk] using h
          rw [← hu]
          exact List.mem_of_find?_eq_some hg
      · rw [if_neg h3] at h; simp at h
  | succ k ih =>
    intro v w h
    rw [chainWalk] at h
    by_cases h2 : (v.value != "") = true
    · rw [if_pos h2] at h; simp at h
    · rw [if_neg h2] at h
      by_cases h3 : (v.default.referenceVar != "") = true
      · rw [if_pos h3] at h
        cases hg : getVariable d v.default.referenceVar with
        | none => rw [hg] at h; simp at h
        | some u =>
          rw [hg] at h
          exact ih u w h
      · rw [if_neg h3] at h; simp at h

/-- C6 (amended): the chain-following recursion terminates whenever the
reference walk from the start stops after finitely many hops — in
particular, if the walk repeats no variable name within the first
`|vars| + 1` hops, fuel `|vars| + 2` suffices (by pigeonhole the walk must
have stopped).  It does NOT terminate in general: on a reference cycle among
intermediate variables that never revisits the check variable the recursion
diverges. -/
theorem c6_termination (d : DraftConfig) (v vc : BuilderVar) (b : Bool) :
    (∀ (k fuel : Nat), chainWalk d k v = none → k ≤ fuel →
      (recurseReferenceVars d fuel v vc b).isSome) ∧
    ((∀ (i j : Nat) (a c : BuilderVar), i < j → j ≤ d.vars.length + 1 →
        chainWalk d i v = some a → chainWalk d j v = some c → a.name ≠ c.name) →
      (recurseReferenceVars d (d.vars.length + 2) v vc b).isSome) := by
  constructor
  · intro k fuel hk hle
    exact recurse_isSome_of_walk_stops d k v hk fuel vc b hle
  · intro hdist
    by_cases hex : ∃ k, k ≤ d.vars.length + 1 ∧ chainWalk d k v = none
    · obtain ⟨k, hk1, hk2⟩ := hex
      exact recurse_isSome_of_walk_stops d k v hk2 (d.vars.length + 2) vc b (by omega)
    · exfalso
      push_neg at hex
      have halive : ∀ k, k ≤ d.vars.length + 1 → ∃ w, chainWalk d k v = some w := by
        intro k hk
        cases hw : chainWalk d k v with
        | none => exact absurd hw (hex k hk)
        | some w => exact ⟨w, rfl⟩
      have hmaps : ∀ i ∈ Finset.range (d.vars.length + 1),
          ((chainWalk d (i + 1) v).getD emptyBuilderVar).name ∈
            (d.vars.map (fun u => u.name)).toFinset := by
        intro i hi
        simp only [Finset.mem_range] at hi
        obtain ⟨w, hw⟩ := halive (i + 1) (by omega)
        rw [hw]
        simp only [Option.getD_some]
        rw [List.mem_toFinset]
        exact List.mem_map.2 ⟨w, chainWalk_mem d i v w hw, rfl⟩
      have hcard : (d.vars.map (fun u => u.name)).toFinset.card <
          (Finset.range (d.vars.length + 1)).card := by
        have h1 := (d.vars.map (fun u => u.name)).toFinset_card_le
        simp only [List.length_map] at h1
        simp only [Finset.card_range]
        omega
      obtain ⟨x, hx, y, hy, hxy, hfeq⟩ :=
        Finset.exists_ne_map_eq_of_card_lt_of_maps_to hcard hmaps
      simp only [Finset.mem_range] at hx hy
      rcases Nat.lt_or_ge x y with hlt | hge
      · obtain ⟨a, ha⟩ := halive (x + 1) (by omega)
        obtain ⟨c, hc⟩ := halive (y + 1) (by omega)
        have hne := hdist (x + 1) (y + 1) a c (by omega) (by omega) ha hc
        rw [ha, hc] at hfeq
        simp only [Option.getD_some] at hfeq
        exact hne hfeq
      · have hlt : y < x := by omega
        obtain ⟨a, ha⟩ := halive (y + 1) (by omega)
        obtain ⟨c, hc⟩ := halive (x + 1) (by omega)
        have hne := hdist (y + 1) (x + 1) a c (by omega) (by omega) ha hc
        rw [ha, hc] at hfeq
        simp only [Option.getD_some] at hfeq
        exact hne hfeq.symm

/-- C6 witness: the amended theorem applied to the chain A→B→C (which stops
after two hops) and to the trivial walk from an unreferenced variable over
`cfgFull`, whose walk never repeats a name within the required window. -/
theorem c6_termination_witness :
    (recurseReferenceVars cfgChain 2 (mkRefVar "B" "C") (mkRefVar "B" "C") true).isSome ∧
    (recurseReferenceVars cfgFull (cfgFull.vars.length + 2) varZ varZ true).isSome :=
  ⟨(c6_termination cfgChain (mkRefVar "B" "C") (mkRefVar "B" "C") true).1 2 2 rfl
     (by omega),
   (c6_termination cfgFull varZ varZ true).2 (by
     intro i j a c hij hj ha hc
     exfalso
     have hj2 : j ≤ 2 := hj
     match j, hij, hj2, hc with
     | 1, _, _, hc => simp [show chainWalk cfgFull 1 varZ = none from rfl] at hc
     | 2, _, _, hc => simp [show chainWalk cfgFull 2 varZ = none from rfl] at hc)⟩

/-- On `cfgCycle4` the recursion ping-pongs between C and D forever. -/
theorem cycle4_CD_walk : ∀ fuel,
    recurseReferenceVars cfgCycle4 fuel (mkRefVar "C" "D") (mkRefVar "B" "C") false =
      none ∧
    recurseReferenceVars cfgCycle4 fuel (mkRefVar "D" "C") (mkRefVar "B" "C") false =
      none := by
  intro fuel
  induction fuel with
  | zero => exact ⟨rfl, rfl⟩
  | succ f ih =>
    refine ⟨?_, ?_⟩
    · show recurseReferenceVars cfgCycle4 f (mkRefVar "D" "C") (mkRefVar "B" "C") false =
        none
      exact ih.2
    · show recurseReferenceVars cfgCycle4 f (mkRefVar "C" "D") (mkRefVar "B" "C") false =
        none
      exact ih.1

/-- If the chain recursion for the referenced variable diverges, so does the
reference-resolution block. -/
theorem applyDefaultVarRef_none (fuel : Nat) (cur : DraftConfig) (v rv : BuilderVar)
    (href : v.default.referenceVar ≠ "")
    (hg : getVariable cur v.default.referenceVar = some rv)
    (hr : recurseReferenceVars cur fuel rv rv true = none) :
    applyDefaultVarRef fuel cur v = none := by
  simp [applyDefaultVarRef, href, hg, hr]

/-- If the chain recursion for the referenced variable diverges, so does the
whole per-variable step. -/
theorem applyDefaultVar_none (fuel : Nat) (cur : DraftConfig) (v rv : BuilderVar)
    (hv : v.value = "") (href : v.default.referenceVar ≠ "")
    (hg : getVariable cur v.default.referenceVar = some rv)
    (hr : recurseReferenceVars cur fuel rv rv true = none) :
    applyDefaultVar fuel cur v = none := by
  simp [applyDefaultVar, hv, applyDefaultVarRef_none fuel cur v rv href hg hr]

/-- A diverging step at the head makes the whole loop diverge. -/
theorem applyVarsAux_none
    (step : DraftConfig → BuilderVar → Option (Except String BuilderVar))
    (base : DraftConfig) (done : List BuilderVar) (v : BuilderVar)
    (rest : List BuilderVar)
    (h : step { base with vars := done ++ v :: rest } v = none) :
    applyVarsAux step base done (v :: rest) = none := by
  simp [applyVarsAux, h]

/-- C6 counterexample: on `cfgCycle4` — chain A→B entering the cycle C↔D
that never revisits the check variable B — the recursion does not return at
any fuel, and neither does `ApplyDefaultVariables`. -/
theorem c6_counterexample :
    recurseDiverges cfgCycle4 (mkRefVar "B" "C") (mkRefVar "B" "C") ∧
    applyDefaultsDiverges cfgCycle4 := by
  have hB : ∀ fuel,
      recurseReferenceVars cfgCycle4 fuel (mkRefVar "B" "C") (mkRefVar "B" "C") true =
        none := by
    intro fuel
    cases fuel with
    | zero => rfl
    | succ f =>
      show recurseReferenceVars cfgCycle4 f (mkRefVar "C" "D") (mkRefVar "B" "C") false =
        none
      exact (cycle4_CD_walk f).1
  refine ⟨hB, ?_⟩
  intro fuel
  show applyVarsAux (applyDefaultVar fuel) cfgCycle4 []
    (mkRefVar "A" "B" :: [mkRefVar "B" "C", mkRefVar "C" "D", mkRefVar "D" "C"]) = none
  apply applyVarsAux_none
  exact applyDefaultVar_none fuel _ (mkRefVar "A" "B") (mkRefVar "B" "C")
    rfl (by decide) rfl (hB fuel)

/-- Addresses of the deep copy all sit at or above the old heap top. -/
theorem heapDeepCopy_addr_ge (heap : List BuilderVar) (c : ConfigRef) (a : Nat)
    (ha : a ∈ (heapDeepCopy heap c).2.varAddrs) :
    heap.length ≤ a ∧ a < heap.length + c.varAddrs.length := by
  have := List.mem_range'_1.mp ha
  omega

/-- The deep-copy heap extends the old heap by exactly the copied cells. -/
theorem heapDeepCopy_length (heap : List BuilderVar) (c : ConfigRef) :
    (heapDeepCopy heap c).1.length = heap.length + c.varAddrs.length := by
  simp [heapDeepCopy]

/-- C7: the deep copy shares no variable cell with the original config:
below the old heap top the copied heap agrees with the old one, a
`SetVariable` performed on the copy leaves every cell of the original
untouched, and a `SetVariable` performed on the original leaves every cell
of the copy untouched. -/
theorem c7_deepCopy_no_sharing (heap : List BuilderVar) (c : ConfigRef)
    (hwf : ∀ a ∈ c.varAddrs, a < heap.length) (name value : String) :
    (∀ a ∈ c.varAddrs,
      (heapDeepCopy heap c).1[a]? = heap[a]? ∧
      ((heapSetVariable (heapDeepCopy heap c).1 (heapDeepCopy heap c).2 name value).1)[a]? =
        (heapDeepCopy heap c).1[a]?) ∧
    (∀ a ∈ (heapDeepCopy heap c).2.varAddrs,
      ((heapSetVariable (heapDeepCopy heap c).1 c name value).1)[a]? =
        (heapDeepCopy heap c).1[a]?) := by
  constructor
  · intro a ha
    have haddr : a < heap.length := hwf a ha
    constructor
    · exact List.getElem?_append_left haddr
    · rw [heapSetVariable]
      cases hf : findVarAddr (heapDeepCopy heap c).1 (heapDeepCopy heap c).2 name with
      | some a' =>
        have ha' : a' ∈ (heapDeepCopy heap c).2.varAddrs :=
          List.mem_of_find?_eq_some hf
        have := (heapDeepCopy_addr_ge heap c a' ha').1
        exact List.getElem?_set_ne (by omega)
      | none =>
        apply List.getElem?_append_left
        rw [heapDeepCopy_length]
        omega
  · intro a ha
    have hge := heapDeepCopy_addr_ge heap c a ha
    rw [heapSetVariable]
    cases hf : findVarAddr (heapDeepCopy heap c).1 c name with
    | some a' =>
      have ha' : a' ∈ c.varAddrs := List.mem_of_find?_eq_some hf
      have := hwf a' ha'
      exact List.getElem?_set_ne (by omega)
    | none =>
      apply List.getElem?_append_left
      rw [heapDeepCopy_length]
      omega

/-- C7 witness: deep-copying the two-cell config and then setting variable
"A" on either side never changes a cell of the other side. -/
theorem c7_deepCopy_no_sharing_witness :
    (∀ a ∈ cfgRefW.varAddrs,
      (heapDeepCopy heapW cfgRefW).1[a]? = heapW[a]? ∧
      ((heapSetVariable (heapDeepCopy heapW cfgRefW).1 (heapDeepCopy heapW cfgRefW).2
          "A" "mutated").1)[a]? = (heapDeepCopy heapW cfgRefW).1[a]?) ∧
    (∀ a ∈ (heapDeepCopy heapW cfgRefW).2.varAddrs,
      ((heapSetVariable (heapDeepCopy heapW cfgRefW).1 cfgRefW "A" "mutated").1)[a]? =
        (heapDeepCopy heapW cfgRefW).1[a]?) :=
  c7_deepCopy_no_sharing heapW cfgRefW (by decide) "A" "mutated"

/-- C8: `DeepCopy` drops the validator/transformer override maps (they come
back empty) and zeroes every conditional reference, while preserving the
scalar config fields, the filename override map, and — per variable — the
name, default, description, example values, type, kind, value and versions
fields. -/
theorem c8_deepCopy_fields (d : DraftConfig) :
    d.deepCopy.validators = [] ∧
    d.deepCopy.transformers = [] ∧
    d.deepCopy.templateName = d.templateName ∧
    d.deepCopy.displayName = d.displayName ∧
    d.deepCopy.description = d.description ∧
    d.deepCopy.type = d.type ∧
    d.deepCopy.versions = d.versions ∧
    d.deepCopy.defaultVersion = d.defaultVersion ∧
    d.deepCopy.fileNameOverrideMap = d.fileNameOverrideMap ∧
    d.deepCopy.vars.length = d.vars.length ∧
    (∀ (j : Nat) (v : BuilderVar), d.vars[j]? = some v →
      d.deepCopy.vars[j]? =
        some { v with conditionalRef := { referenceVar := "" } }) := by
  refine ⟨rfl, rfl, rfl, rfl, rfl, rfl, rfl, rfl, rfl, ?_, ?_⟩
  · simp [DraftConfig.deepCopy]
  · intro j v hj
    simp [DraftConfig.deepCopy, hj, BuilderVar.deepCopy]

/-- C8 witness: copying `cfgCond` empties the override maps and zeroes the
conditional reference of its variable. -/
theorem c8_deepCopy_fields_witness :
    cfgCond.deepCopy.validators = [] ∧
    cfgCond.deepCopy.transformers = [] ∧
    cfgCond.deepCopy.vars[0]? =
      some { varCond with conditionalRef := { referenceVar := "" } } :=
  ⟨(c8_deepCopy_fields cfgCond).1, (c8_deepCopy_fields cfgCond).2.1,
   (c8_deepCopy_fields cfgCond).2.2.2.2.2.2.2.2.2.2 0 varCond rfl⟩

/-- Skipped entries play no role: the walk equals the walk of the filtered
list. -/
theorem generateTemplateAux_filter (env : RenderEnv) (dest : String) :
    ∀ (files : List FsEntry) (acc : List (String × String)),
      generateTemplateAux env dest files acc =
        generateTemplateAux env dest (files.filter shouldProcess) acc := by
  intro files
  induction files with
  | nil => intro acc; rfl
  | cons e rest ih =>
    intro acc
    by_cases h1 : e.isDir = true
    · have hsp : shouldProcess e = false := by simp [shouldProcess, h1]
      rw [List.filter_cons, hsp]
      rw [generateTemplateAux, if_pos h1]
      simp only [Bool.false_eq_true, if_false]
      exact ih acc
    · by_cases h2 : equalFold e.name "draft.yaml" = true
      · have hsp : shouldProcess e = false := by simp [shouldProcess, h2]
        rw [List.filter_cons, hsp]
        rw [generateTemplateAux, if_neg h1, if_pos h2]
        simp only [Bool.false_eq_true, if_false]
        exact ih acc
      · have hsp : shouldProcess e = true := by simp [shouldProcess, h1, h2]
        rw [List.filter_cons, hsp]
        simp only [if_true]
        rw [generateTemplateAux, if_neg h1, if_neg h2]
        rw [generateTemplateAux, if_neg h1, if_neg h2]
        cases writeTemplate env dest e with
        | error err => rfl
        | ok p => exact ih (acc ++ [p])

/-- A walk over processed entries that all write successfully appends
exactly their writes, in order, and reports no error. -/
theorem generateTemplateAux_all_ok (env : RenderEnv) (dest : String)
    (w : FsEntry → String × String) :
    ∀ (files : List FsEntry) (acc : List (String × String)),
      (∀ e ∈ files, shouldProcess e = true) →
      (∀ e ∈ files, writeTemplate env dest e = .ok (w e)) →
      generateTemplateAux env dest files acc = (acc ++ files.map w, none) := by
  intro files
  induction files with
  | nil => intro acc _ _; simp [generateTemplateAux]
  | cons e rest ih =>
    intro acc hsp hok
    have he := hsp e (by simp)
    have h1 : e.isDir = false := by
      cases h : e.isDir
      · rfl
      · simp [shouldProcess, h] at he
    have h2 : equalFold e.name "draft.yaml" = false := by
      cases h : equalFold e.name "draft.yaml"
      · rfl
      · simp [shouldProcess, h] at he
    rw [generateTemplateAux, if_neg (by simp [h1]), if_neg (by simp [h2])]
    rw [hok e (by simp)]
    show generateTemplateAux env dest rest (acc ++ [w e]) =
      (acc ++ List.map w (e :: rest), none)
    rw [ih (acc ++ [w e]) (fun u hu => hsp u (by simp [hu]))
      (fun u hu => hok u (by simp [hu]))]
    simp

/-- A walk whose processed entries write successfully up to a failing one
keeps the earlier writes and stops with that error. -/
theorem generateTemplateAux_abort (env : RenderEnv) (dest : String)
    (w : FsEntry → String × String) (bad : FsEntry) (err : String)
    (post : List FsEntry) :
    ∀ (pre : List FsEntry) (acc : List (String × String)),
      (∀ e ∈ pre, shouldProcess e = true) →
      (∀ e ∈ pre, writeTemplate env dest e = .ok (w e)) →
      shouldProcess bad = true →
      writeTemplate env dest bad = .error err →
      generateTemplateAux env dest (pre ++ bad :: post) acc =
        (acc ++ pre.map w, some err) := by
  intro pre
  induction pre with
  | nil =>
    intro acc _ _ hb hbad
    have h1 : bad.isDir = false := by
      cases h : bad.isDir
      · rfl
      · simp [shouldProcess, h] at hb
    have h2 : equalFold bad.name "draft.yaml" = false := by
      cases h : equalFold bad.name "draft.yaml"
      · rfl
      · simp [shouldProcess, h] at hb
    rw [List.nil_append, generateTemplateAux, if_neg (by simp [h1]),
      if_neg (by simp [h2]), hbad]
    simp
  | cons e rest ih =>
    intro acc hsp hok hb hbad
    have he := hsp e (by simp)
    have h1 : e.isDir = false := by
      cases h : e.isDir
      · rfl
      · simp [shouldProcess, h] at he
    have h2 : equalFold e.name "draft.yaml" = false := by
      cases h : equalFold e.name "draft.yaml"
      · rfl
      · simp [shouldProcess, h] at he
    rw [List.cons_append, generateTemplateAux, if_neg (by simp [h1]),
      if_neg (by simp [h2])]
    rw [hok e (by simp)]
    show generateTemplateAux env dest (rest ++ bad :: post) (acc ++ [w e]) =
      (acc ++ List.map w (e :: rest), some err)
    rw [ih (acc ++ [w e]) (fun u hu => hsp u (by simp [hu]))
      (fun u hu => hok u (by simp [hu])) hb hbad]
    simp

/-- C10: the rendering walk skips directories and files whose base name
case-insensitively equals "draft.yaml" (the walk equals the walk of the
filtered list); every processed file is rendered and written to
`<destination>/<base filename>`; when all processed files succeed the walk
writes exactly their renders in order with no error; and the first failing
file aborts the remaining walk with its error while the writes already
performed remain. -/
theorem c10_render_walk (env : RenderEnv) (dest : String) (files : List FsEntry)
    (w : FsEntry → String × String) (e : FsEntry) (contents rendered : String)
    (bad : FsEntry) (err : String) (pre post : List FsEntry) :
    (generateTemplate env dest files =
      generateTemplate env dest (files.filter shouldProcess)) ∧
    (e.content = .ok contents → env.render contents = .ok rendered →
      env.write (dest ++ "/" ++ filepathBase e.path) rendered = none →
      writeTemplate env dest e = .ok (dest ++ "/" ++ filepathBase e.path, rendered)) ∧
    ((∀ u ∈ files.filter shouldProcess, writeTemplate env dest u = .ok (w u)) →
      generateTemplate env dest files = ((files.filter shouldProcess).map w, none)) ∧
    (files.filter shouldProcess = pre ++ bad :: post →
      (∀ u ∈ pre, writeTemplate env dest u = .ok (w u)) →
      writeTemplate env dest bad = .error err →
      generateTemplate env dest files = (pre.map w, some err)) := by
  refine ⟨?_, ?_, ?_, ?_⟩
  · exact generateTemplateAux_filter env dest files []
  · intro hc hr hw
    simp [writeTemplate, hc, hr, hw]
  · intro hok
    rw [generateTemplate, generateTemplateAux_filter env dest files []]
    rw [generateTemplateAux_all_ok env dest w (files.filter shouldProcess) []
      (fun u hu => List.of_mem_filter hu) hok]
    simp
  · intro hsplit hok hbad
    have hb : shouldProcess bad = true := by
      have : bad ∈ files.filter shouldProcess := by
        rw [hsplit]; simp
      exact List.of_mem_filter this
    have hpre : ∀ u ∈ pre, shouldProcess u = true := by
      intro u hu
      have : u ∈ files.filter shouldProcess := by
        rw [hsplit]; simp [hu]
      exact List.of_mem_filter this
    rw [generateTemplate, generateTemplateAux_filter env dest files [], hsplit]
    rw [generateTemplateAux_abort env dest w bad err post pre [] hpre hok hb hbad]
    simp

/-- C10 witness: the walk over a tree with a directory, a mixed-case
draft.yaml, one good file, one failing file and one file after it — the
filtered walk, the per-file write shape, the all-success run without the
failing file, and the aborted run with it. -/
theorem c10_render_walk_witness :
    (generateTemplate envW "out" [fDir, fYaml, fA, fBoom, fC] =
      generateTemplate envW "out"
        ([fDir, fYaml, fA, fBoom, fC].filter shouldProcess)) ∧
    (writeTemplate envW "out" fA =
      .ok ("out" ++ "/" ++ filepathBase fA.path, "hello")) ∧
    (generateTemplate envW "out" [fDir, fYaml, fA, fC] =
      (([fDir, fYaml, fA, fC].filter shouldProcess).map wW, none)) ∧
    (generateTemplate envW "out" [fDir, fYaml, fA, fBoom, fC] =
      ([fA].map wW, some "render failed")) :=
  ⟨(c10_render_walk envW "out" [fDir, fYaml, fA, fBoom, fC] wW fA "hello" "hello"
      fBoom "render failed" [fA] [fC]).1,
   (c10_render_walk envW "out" [fDir, fYaml, fA, fBoom, fC] wW fA "hello" "hello"
      fBoom "render failed" [fA] [fC]).2.1 rfl rfl rfl,
   (c10_render_walk envW "out" [fDir, fYaml, fA, fC] wW fA "hello" "hello"
      fBoom "render failed" [fA] [fC]).2.2.1
     (by
       intro u hu
       have hu2 : u ∈ [fA, fC] := hu
       simp only [List.mem_cons, List.mem_singleton, List.not_mem_nil, or_false] at hu2
       rcases hu2 with rfl | rfl
       · rfl
       · rfl),
   (c10_render_walk envW "out" [fDir, fYaml, fA, fBoom, fC] wW fA "hello" "hello"
      fBoom "render failed" [fA] [fC]).2.2.2 rfl
     (by
       intro u hu
       have hu2 : u ∈ [fA] := hu
       simp only [List.mem_singleton] at hu2
       rw [hu2]
       rfl)
     rfl⟩

/-- C2 (code bug): a single successful `Generate` call renders and writes
the one template file TWICE — the source invokes `generateTemplate` twice in
a row — although defaults are applied once; the claim (and the spec) say the
rendering traversal happens exactly once per call. -/
theorem c2_generate_writes_twice :
    Generate oracleW 1 envId (some tmplOne) =
      some ([("out" ++ "/" ++ "a.txt", "hello"), ("out" ++ "/" ++ "a.txt", "hello")],
        none) := rfl
